import Mathlib

/-!
A verification development for the data-fetching core of the CERTIMOS
participant dashboard (`src/app/participant-dashboard/page.jsx`).

The JavaScript component is shallowly embedded: JSON values become the
inductive `Val`, JavaScript objects become association lists with JS
object-literal update semantics (`setField`, `spreadOnto`), network
effects become explicit outcome parameters (`FetchResult`, `ProbeOutcome`,
provider environments), and `try`/`catch` becomes `Except` with an
explicit handler.  State-setter calls (`setCertificates`, `setBalance`,
...) become fields of an explicit dashboard state record.
-/

set_option autoImplicit false

/-- JSON-like values appearing in backend responses and metadata documents. -/
inductive Val where
  | vnull : Val
  | vbool : Bool → Val
  | vnum : Int → Val
  | vstr : String → Val
  | vobj : List (String × Val) → Val

/-- A JavaScript object: association list of fields, first occurrence of a
key is authoritative for lookup, and updates replace in place (JS objects
never hold duplicate keys, and insertion order is preserved). -/
abbrev Obj := List (String × Val)

/-- Property lookup `o[k]`: `none` models an absent field. -/
def getField : Obj → String → Option Val
  | [], _ => none
  | (a, b) :: t, k => if a = k then some b else getField t k

/-- Property assignment `o[k] = v` as performed by an object literal:
replace the existing binding in place, else append a new binding. -/
def setField : Obj → String → Val → Obj
  | [], k, v => [(k, v)]
  | (a, b) :: t, k, v => if a = k then (k, v) :: t else (a, b) :: setField t k v

/-- JS spread `{...base, ...m}`: assign every field of `m` onto `base`,
in order, later assignments overriding earlier ones. -/
def spreadOnto : Obj → Obj → Obj
  | base, [] => base
  | base, (k, v) :: t => spreadOnto (setField base k v) t

/-- Lookup of the last binding of `k` in `m` (the binding a JS spread of
`m` would leave in effect when `m` held duplicate keys). -/
def lastField (m : Obj) (k : String) : Option Val :=
  getField m.reverse k

theorem getField_setField (o : Obj) (k q : String) (v : Val) :
    getField (setField o k v) q = if k = q then some v else getField o q := by
  induction o with
  | nil => simp [getField, setField]
  | cons p t ih =>
    obtain ⟨a, b⟩ := p
    by_cases hak : a = k
    · subst hak
      by_cases haq : a = q <;> simp [getField, setField, haq]
    · by_cases haq : a = q
      · subst haq
        have : ¬ k = a := fun h => hak h.symm
        simp [getField, setField, hak, this]
      · simp [getField, setField, hak, haq, ih]

theorem getField_append (xs ys : Obj) (q : String) :
    getField (xs ++ ys) q =
      match getField xs q with
      | some v => some v
      | none => getField ys q := by
  induction xs with
  | nil => simp [getField]
  | cons p t ih =>
    obtain ⟨a, b⟩ := p
    by_cases haq : a = q <;> simp [getField, haq, ih]

theorem lastField_cons (a : String) (b : Val) (t : Obj) (q : String) :
    lastField ((a, b) :: t) q =
      match lastField t q with
      | some v => some v
      | none => if a = q then some b else none := by
  unfold lastField
  rw [List.reverse_cons, getField_append]
  cases getField t.reverse q <;> simp [getField]

theorem getField_spreadOnto (base m : Obj) (q : String) :
    getField (spreadOnto base m) q =
      match lastField m q with
      | some v => some v
      | none => getField base q := by
  induction m generalizing base with
  | nil => simp [spreadOnto, lastField, getField]
  | cons p t ih =>
    obtain ⟨a, b⟩ := p
    rw [spreadOnto, ih, lastField_cons]
    cases h : lastField t q with
    | some v => simp
    | none =>
      rw [getField_setField]
      by_cases haq : a = q <;> simp [haq]

theorem getField_eq_none_iff (m : Obj) (q : String) :
    getField m q = none ↔ ∀ p ∈ m, p.1 ≠ q := by
  induction m with
  | nil => simp [getField]
  | cons p t ih =>
    obtain ⟨a, b⟩ := p
    by_cases haq : a = q <;> simp [getField, haq, ih]

theorem lastField_eq_none_iff (m : Obj) (q : String) :
    lastField m q = none ↔ getField m q = none := by
  unfold lastField
  rw [getField_eq_none_iff, getField_eq_none_iff]
  constructor
  · intro h p hp
    exact h p (List.mem_reverse.mpr hp)
  · intro h p hp
    exact h p (List.mem_reverse.mp hp)

theorem lastField_eq_getField_of_nodup (m : Obj) (q : String)
    (h : (m.map Prod.fst).Nodup) : lastField m q = getField m q := by
  induction m with
  | nil => simp [lastField, getField]
  | cons p t ih =>
    obtain ⟨a, b⟩ := p
    rw [List.map_cons, List.nodup_cons] at h
    rw [lastField_cons, ih h.2]
    by_cases haq : a = q
    · subst haq
      have hnone : getField t a = none := by
        rw [getField_eq_none_iff]
        intro r hr hra
        exact h.1 (List.mem_map.mpr ⟨r, hr, hra⟩)
      simp [getField, hnone]
    · cases hg : getField t q <;> simp [getField, haq, hg]

/-! ## IPFS locator resolution and metadata fetch (`resolveIPFS`, `fetchIPFSMetadata`) -/

/-- Embedding of `resolveIPFS` (page.jsx 17-23): empty locator passes
through, an `ipfs://` scheme prefix is rewritten to the public gateway by
literal substitution, anything else passes through unchanged. -/
def resolveIPFS (uri : String) : String :=
  if uri = "" then ""
  else if uri.startsWith "ipfs://" then "https://ipfs.io/ipfs/" ++ uri.drop 7
  else uri

/-- JavaScript truthiness test `!tokenURI` on an optional JSON value
(`none` models an absent field, i.e. `undefined`). -/
def valFalsy : Option Val → Bool
  | none => true
  | some .vnull => true
  | some (.vbool b) => !b
  | some (.vnum n) => n == 0
  | some (.vstr s) => s == ""
  | some (.vobj _) => false

/-- Outcome of one `fetch` of a metadata URL: the promise rejects
(`networkError`), or a response arrives with its `ok` flag and a body that
either parses as JSON (`some`) or makes `response.json()` reject (`none`). -/
inductive FetchResult where
  | networkError : FetchResult
  | response (ok : Bool) (body : Option Obj) : FetchResult

/-- The `try` block of `fetchIPFSMetadata` (page.jsx 27-40), instrumented
with the list of URLs actually fetched.  A falsy `tokenURI` returns `null`
before any network call; a truthy non-string makes `uri.startsWith` throw
a `TypeError` inside `resolveIPFS`, still before any network call; a
network rejection, a non-2xx response (`!response.ok`) and a malformed
JSON body all throw. -/
def fetchIPFSMetadataBody (tokenURI : Option Val) (env : String → FetchResult) :
    Except String (Option Obj) × List String :=
  if valFalsy tokenURI then (.ok none, [])
  else
    match tokenURI with
    | some (.vstr s) =>
      let url := resolveIPFS s
      match env url with
      | .networkError => (.error "network error", [url])
      | .response ok body =>
        if ok then
          match body with
          | some m => (.ok (some m), [url])
          | none => (.error "malformed JSON", [url])
        else (.error "Failed to fetch metadata", [url])
    | _ => (.error "uri.startsWith is not a function", [])

/-- The call `fetchIPFSMetadata(tokenURI)` as its caller observes it: the
`catch` (page.jsx 41-44) turns every throw of the `try` block into a
normal `null` return, so the call itself never yields `.error`. -/
def fetchIPFSMetadataCall (tokenURI : Option Val) (env : String → FetchResult) :
    Except String (Option Obj) :=
  match (fetchIPFSMetadataBody tokenURI env).1 with
  | .ok v => .ok v
  | .error _ => .ok none

/-- The value `fetchIPFSMetadata` returns: the parsed metadata document,
or `null` on a falsy locator or any caught failure. -/
def fetchIPFSMetadata (tokenURI : Option Val) (env : String → FetchResult) : Option Obj :=
  match (fetchIPFSMetadataBody tokenURI env).1 with
  | .ok v => v
  | .error _ => none

/-- The list of metadata URLs `fetchIPFSMetadata` actually fetches. -/
def fetchIPFSMetadataCalls (tokenURI : Option Val) (env : String → FetchResult) : List String :=
  (fetchIPFSMetadataBody tokenURI env).2

/-! ## The per-record merge inside `apiService.getCertificates` -/

/-- The JSON value the variable `metadata` holds after the call:
`null` when the fetch returned nothing, otherwise the document object. -/
def optObjVal : Option Obj → Val
  | none => .vnull
  | some o => .vobj o

/-- Embedding of the object literal `{...cert, metadata: metadata,
...metadata}` (page.jsx 95-100): spread the raw record, assign the
`metadata` field, then spread the metadata document over the result
(spreading `null` assigns nothing). -/
def mergeCert (cert : Obj) (m : Option Obj) : Obj :=
  let withMeta := setField cert "metadata" (optObjVal m)
  match m with
  | none => withMeta
  | some mo => spreadOnto withMeta mo

/-- The `try` block of the per-record callback in
`apiService.getCertificates` (page.jsx 93-100): it can only throw if the
`fetchIPFSMetadata` call itself throws. -/
def enrichRecordE (cert : Obj) (env : String → FetchResult) : Except String Obj :=
  match fetchIPFSMetadataCall (getField cert "tokenURI") env with
  | .error e => .error e
  | .ok m => .ok (mergeCert cert m)

/-- The full per-record callback (page.jsx 92-105): on a throw, the
`catch` returns the original record unchanged. -/
def enrichRecord (cert : Obj) (env : String → FetchResult) : Obj :=
  match enrichRecordE cert env with
  | .ok r => r
  | .error _ => cert

/-- The `Promise.all(data.certificates.map(...))` augmentation (page.jsx
91-106): every record is enriched independently. -/
def augmentCertificates (certs : List Obj) (env : String → FetchResult) : List Obj :=
  certs.map (fun c => enrichRecord c env)

theorem fetchIPFSMetadataCall_eq_ok (t : Option Val) (env : String → FetchResult) :
    fetchIPFSMetadataCall t env = .ok (fetchIPFSMetadata t env) := by
  unfold fetchIPFSMetadataCall fetchIPFSMetadata
  cases (fetchIPFSMetadataBody t env).1 <;> rfl

theorem enrichRecord_eq_mergeCert (cert : Obj) (env : String → FetchResult) :
    enrichRecord cert env =
      mergeCert cert (fetchIPFSMetadata (getField cert "tokenURI") env) := by
  unfold enrichRecord enrichRecordE
  rw [fetchIPFSMetadataCall_eq_ok]

/-! ## Backend discovery (`apiService.findWorkingBackend`) -/

/-- The module-level mutable URLs `API_BASE_URL` / `HEALTH_URL`
(page.jsx 13-14), threaded explicitly. -/
structure ApiState where
  apiBaseUrl : String
  healthUrl : String
deriving DecidableEq

/-- Outcome of one liveness probe `fetch(baseUrl + "/health")`: the fetch
rejects (`err`), or a response arrives with its `ok` flag and a body that
parses as JSON (`some`) or makes `response.json()` reject (`none`). -/
inductive ProbeOutcome where
  | err : ProbeOutcome
  | resp (ok : Bool) (body : Option Obj) : ProbeOutcome

/-- The error message thrown when every candidate fails (page.jsx 70). -/
def noBackendMsg : String :=
  "No backend server found. Please start your backend server."

/-- Embedding of `apiService.findWorkingBackend` (page.jsx 50-71),
instrumented with the list of candidates probed, in order.  On a 2xx
response the two URL globals are assigned before `response.json()` is
awaited; if that parse then throws, the `catch` swallows it and iteration
continues with the globals already overwritten. -/
def findWorkingBackend (probe : String → ProbeOutcome) :
    List String → ApiState → Except String Obj × ApiState × List String
  | [], st => (.error noBackendMsg, st, [])
  | c :: rest, st =>
    match probe (c ++ "/health") with
    | .resp true body =>
      let st1 : ApiState := { apiBaseUrl := c ++ "/api", healthUrl := c ++ "/health" }
      match body with
      | some j => (.ok j, st1, [c])
      | none =>
        let r := findWorkingBackend probe rest st1
        (r.1, r.2.1, c :: r.2.2)
    | .resp false _ =>
      let r := findWorkingBackend probe rest st
      (r.1, r.2.1, c :: r.2.2)
    | .err =>
      let r := findWorkingBackend probe rest st
      (r.1, r.2.1, c :: r.2.2)

/-- A candidate's probe answered 2xx with a parseable JSON body `j`. -/
def goodProbe (probe : String → ProbeOutcome) (c : String) : Option Obj :=
  match probe (c ++ "/health") with
  | .resp true (some j) => some j
  | _ => none

/-- A candidate's probe answered with a 2xx response (any body). -/
def probe2xx (probe : String → ProbeOutcome) (c : String) : Bool :=
  match probe (c ++ "/health") with
  | .resp true _ => true
  | _ => false

/-! ## Network switching (`ensureCorrectNetwork`) -/

/-- One request issued to the wallet provider, as observable effects. -/
inductive EthCall where
  | getChainId : EthCall
  | switchChain (chainId : String) : EthCall
  | addChain (chainId : String) : EthCall
deriving DecidableEq

/-- The wallet provider as `ensureCorrectNetwork` observes it: presence of
`window.ethereum`, the current chain id, and the outcomes of a
`wallet_switchEthereumChain` and a `wallet_addEthereumChain` request
(errors carry the provider error `code`). -/
structure EthEnv where
  hasEthereum : Bool
  chainId : String
  switchResult : Except Int Unit
  addChainResult : Except Int Unit

/-- The Apothem Testnet chain id (page.jsx 277). -/
def apothemChainId : String := "0x33"

/-- Embedding of `ensureCorrectNetwork` (page.jsx 273-304), returning the
overall outcome together with the ordered list of provider requests
issued.  On a switch error with code 4902 the chain definition is
registered via `wallet_addEthereumChain`; any other switch error, and any
`addChain` error, propagates to the caller. -/
def ensureCorrectNetwork (env : EthEnv) : Except Int Unit × List EthCall :=
  if !env.hasEthereum then (.ok (), [])
  else if env.chainId = apothemChainId then (.ok (), [.getChainId])
  else
    match env.switchResult with
    | .ok _ => (.ok (), [.getChainId, .switchChain apothemChainId])
    | .error code =>
      if code = 4902 then
        match env.addChainResult with
        | .ok _ => (.ok (), [.getChainId, .switchChain apothemChainId, .addChain apothemChainId])
        | .error e => (.error e, [.getChainId, .switchChain apothemChainId, .addChain apothemChainId])
      else (.error code, [.getChainId, .switchChain apothemChainId])

/-- Whether a provider request is a `wallet_switchEthereumChain` request. -/
def isSwitchCall : EthCall → Bool
  | .switchChain _ => true
  | _ => false

/-! ## Balance formatting and the dashboard load (`fetchWalletData`) -/

/-- Embedding of `ethers.formatEther`: a raw wei balance rendered as a
decimal string with the 18-digit fractional part trimmed of trailing
zeros (at least one fractional digit is kept, as ethers does). -/
def formatEther (wei : Nat) : String :=
  let whole := wei / 1000000000000000000
  let fracDigits := Nat.toDigits 10 (wei % 1000000000000000000)
  let padded := List.replicate (18 - fracDigits.length) '0' ++ fracDigits
  let trimmed := (padded.reverse.dropWhile (fun ch => ch = '0')).reverse
  let fracStr := if trimmed.isEmpty then "0" else String.mk trimmed
  toString whole ++ "." ++ fracStr

/-- Which call site last assigned the displayed balance. -/
inductive BalSource where
  | backend : BalSource
  | direct : BalSource
  | unavailable : BalSource
deriving DecidableEq

/-- The component state touched by `fetchWalletData`, with the balance
additionally tagged by the call site that set it. -/
structure DashState where
  loading : Bool
  metadataLoading : Bool
  error : Option String
  certificates : List Obj
  certificateCount : Nat
  balance : Option String
  balanceSource : Option BalSource

/-- The settled value of `apiService.getCertificates(address)` when the
promise fulfills: the fields of the response object that
`fetchWalletData` reads. -/
structure CertsPayload where
  success : Bool
  certificates : Option (List Obj)
  count : Option Nat
  error : Option String

/-- The settled value of `apiService.getBalance(address)` when the promise
fulfills: its `success` flag and `balance.formatted`. -/
structure BalancePayload where
  success : Bool
  formatted : String

/-- The environment `fetchDirectBalance` runs against: presence of
`window.ethereum` and the outcome of `provider.getBalance(address)`
(raw wei on success). -/
structure DirectEnv where
  hasEthereum : Bool
  providerBalance : Except String Nat

/-- Embedding of `fetchDirectBalance` (page.jsx 306-316): absent provider
returns without touching the balance; a successful provider call stores
`formatEther(bal)`; any throw is caught and stores the sentinel
`"Unable to load"`.  The function is total: it never throws. -/
def fetchDirectBalance (st : DashState) (denv : DirectEnv) : DashState :=
  if !denv.hasEthereum then st
  else
    match denv.providerBalance with
    | .ok wei => { st with balance := some (formatEther wei), balanceSource := some .direct }
    | .error _ => { st with balance := some "Unable to load", balanceSource := some .unavailable }

/-- The balance branch of `fetchWalletData` (page.jsx 251-261): a
fulfilled `success:true` payload stores the backend-formatted value;
a fulfilled `success:false` payload or a rejected promise falls back to
`fetchDirectBalance`. -/
def handleBalance (st : DashState) (bal : Except String BalancePayload)
    (denv : DirectEnv) : DashState :=
  match bal with
  | .ok q =>
    if q.success then { st with balance := some q.formatted, balanceSource := some .backend }
    else fetchDirectBalance st denv
  | .error _ => fetchDirectBalance st denv

/-- The `catch` of `fetchWalletData` (page.jsx 265-270). -/
def dashboardFail (st : DashState) (msg : String) : DashState :=
  { st with error := some ("Failed to load dashboard data: " ++ msg),
            loading := false, metadataLoading := false }

/-- Clearing of the loading flags at the end of the `try` (page.jsx 263-264). -/
def dashboardFinish (st : DashState) : DashState :=
  { st with loading := false, metadataLoading := false }

/-- The JS `certsData.count || certs.length` (page.jsx 240): `0`, like an
absent field, is falsy and is replaced by the array length. -/
def certCount (count : Option Nat) (certs : List Obj) : Nat :=
  match count with
  | some n => if n = 0 then certs.length else n
  | none => certs.length

/-- Embedding of `fetchWalletData` (page.jsx 218-271).  Inputs are the
initial component state, the outcome of `ensureCorrectNetwork`, the two
settled outcomes of the `Promise.allSettled` pair, and the direct-balance
environment.  A network-switch throw and the explicit `throw` on a
fulfilled `success:false` certificates payload (page.jsx 242) both land in
the `catch`; a rejected certificates promise degrades to an empty list and
count 0; the balance branch runs only when the certificates branch did not
throw. -/
def fetchWalletData (st0 : DashState) (net : Except String Unit)
    (cert : Except String CertsPayload) (bal : Except String BalancePayload)
    (denv : DirectEnv) : DashState :=
  let st := { st0 with loading := true, metadataLoading := true, error := none }
  match net with
  | .error e => dashboardFail st e
  | .ok _ =>
    match cert with
    | .ok p =>
      if p.success then
        let certs := p.certificates.getD []
        let st1 := { st with certificates := certs,
                             certificateCount := certCount p.count certs }
        dashboardFinish (handleBalance st1 bal denv)
      else dashboardFail st (p.error.getD "Failed to fetch certificates")
    | .error _ =>
      let st1 := { st with certificates := [], certificateCount := 0 }
      dashboardFinish (handleBalance st1 bal denv)

/-- An arbitrary initial component state (page.jsx 173-183 defaults). -/
def initialDashState : DashState :=
  { loading := true, metadataLoading := false, error := none,
    certificates := [], certificateCount := 0,
    balance := none, balanceSource := none }

/-! ## Concrete fixtures -/

/-- A metadata-fetch environment in which every URL answers 2xx with the
JSON document `mo`. -/
def envMeta (mo : Obj) : String → FetchResult := fun _ => .response true (some mo)

/-- A metadata-fetch environment in which every fetch rejects. -/
def envFail : String → FetchResult := fun _ => .networkError

/-- A raw record carrying an explicit `name` field. -/
def certC1 : Obj := [("tokenId", .vnum 1), ("tokenURI", .vstr "http://x"), ("name", .vstr "raw")]

/-- A metadata document carrying a `name` field of its own. -/
def mdC1 : Obj := [("name", Val.vstr "meta")]

/-- A raw record whose metadata document redefines `tokenId`. -/
def certC5 : Obj := [("tokenId", .vnum 1), ("tokenURI", .vstr "http://y")]

/-- A metadata document that redefines the identifier field. -/
def mdC5 : Obj := [("tokenId", Val.vnum 99)]

/-- The raw record of the spec's own scenario (§8): metadata fetch fails. -/
def certC3 : Obj := [("tokenId", .vnum 1), ("tokenURI", .vstr "ipfs://X")]

/-- A raw record with no content-locator field at all. -/
def certC9 : Obj := [("tokenId", .vnum 7)]

/-! ## Claim theorems: metadata augmentation -/

/-- C1 counterexample: the merge `{...cert, metadata, ...metadata}`
spreads the metadata document last, so for the record `certC1` (raw
`name` is `"raw"`) whose metadata document was fetched successfully and
contains `name = "meta"`, the enriched record holds the metadata value,
not the raw one — raw fields do not take precedence. -/
theorem C1_counterexample :
    fetchIPFSMetadataCall (getField certC1 "tokenURI") (envMeta mdC1) = .ok (some mdC1) ∧
    getField certC1 "name" = some (.vstr "raw") ∧
    getField (enrichRecord certC1 (envMeta mdC1)) "name" = some (.vstr "meta") ∧
    getField (enrichRecord certC1 (envMeta mdC1)) "name" ≠ getField certC1 "name" := by
  refine ⟨rfl, rfl, rfl, ?_⟩
  intro h
  have h' : (some (Val.vstr "meta") : Option Val) = some (Val.vstr "raw") := h
  injection h' with h1
  injection h1 with h2
  exact absurd h2 (by decide)

/-- C1 amended: in the merge performed by `getCertificates` on a record
whose metadata document was fetched successfully, a RawRecord field keeps
its raw value exactly when the metadata document does not define a field
of the same name (and the field is not the reserved `metadata` key);
a field the metadata document also defines takes the metadata value —
metadata fields take precedence over raw fields, not the other way
around. -/
theorem C1_amended (cert : Obj) (env : String → FetchResult) (mo : Obj) (k : String)
    (hfetch : fetchIPFSMetadataCall (getField cert "tokenURI") env = .ok (some mo))
    (hnodup : (mo.map Prod.fst).Nodup) (hk : k ≠ "metadata") :
    (getField mo k = none → getField (enrichRecord cert env) k = getField cert k) ∧
    (∀ v, getField mo k = some v → getField (enrichRecord cert env) k = some v) := by
  rw [fetchIPFSMetadataCall_eq_ok] at hfetch
  have hm : fetchIPFSMetadata (getField cert "tokenURI") env = some mo :=
    Except.ok.inj hfetch
  rw [enrichRecord_eq_mergeCert, hm]
  have hmc : mergeCert cert (some mo)
      = spreadOnto (setField cert "metadata" (optObjVal (some mo))) mo := rfl
  rw [hmc, getField_spreadOnto, lastField_eq_getField_of_nodup mo k hnodup]
  constructor
  · intro hnone
    rw [hnone, getField_setField]
    have : ¬ ("metadata" = k) := fun h => hk h.symm
    simp [this]
  · intro v hv
    rw [hv]

/-- C1 witness: on the concrete record and metadata document of the
counterexample fixture, the amended rule evaluates as proved. -/
theorem C1_amended_witness :
    getField (enrichRecord certC1 (envMeta mdC1)) "name" = some (Val.vstr "meta") :=
  (C1_amended certC1 (envMeta mdC1) mdC1 "name" rfl (by decide) (by decide)).2
    (Val.vstr "meta") rfl

/-- C5 counterexample: a metadata document that itself defines `tokenId`
overwrites the RawRecord's identifier in the enriched record (the
metadata spread comes last), so enrichment can overwrite the identifier
field. -/
theorem C5_counterexample :
    fetchIPFSMetadata (getField certC5 "tokenURI") (envMeta mdC5) = some mdC5 ∧
    getField certC5 "tokenId" = some (.vnum 1) ∧
    getField (enrichRecord certC5 (envMeta mdC5)) "tokenId" = some (.vnum 99) ∧
    getField (enrichRecord certC5 (envMeta mdC5)) "tokenId" ≠ getField certC5 "tokenId" := by
  refine ⟨rfl, rfl, rfl, ?_⟩
  intro h
  have h' : (some (Val.vnum 99) : Option Val) = some (Val.vnum 1) := h
  injection h' with h1
  injection h1 with h2
  exact absurd h2 (by decide)

/-- C5 amended: the enriched record keeps the RawRecord's `tokenId` value
whenever the fetched metadata document does not itself define a `tokenId`
field (in particular always when the fetch returned `null`); a document
that does define one overwrites it. -/
theorem C5_amended (cert : Obj) (env : String → FetchResult)
    (h : ∀ mo, fetchIPFSMetadata (getField cert "tokenURI") env = some mo →
      getField mo "tokenId" = none) :
    getField (enrichRecord cert env) "tokenId" = getField cert "tokenId" := by
  rw [enrichRecord_eq_mergeCert]
  cases hm : fetchIPFSMetadata (getField cert "tokenURI") env with
  | none =>
    show getField (setField cert "metadata" (optObjVal none)) "tokenId" = _
    rw [getField_setField]
    simp
  | some mo =>
    show getField (spreadOnto (setField cert "metadata" (optObjVal (some mo))) mo) "tokenId" = _
    rw [getField_spreadOnto, (lastField_eq_none_iff mo "tokenId").mpr (h mo hm),
      getField_setField]
    simp

/-- C5 witness: the concrete record `certC1` enriched with the
`tokenId`-free document `mdC1` keeps its identifier value `1`. -/
theorem C5_amended_witness :
    getField (enrichRecord certC1 (envMeta mdC1)) "tokenId" = some (Val.vnum 1) :=
  (C5_amended certC1 (envMeta mdC1) (fun mo hmo => by cases Option.some.inj hmo; rfl)).trans rfl

/-- C3 counterexample: when the metadata fetch for `certC3` rejects, the
callback returns `{...cert, metadata: null}`: a `metadata` field with
value `null` is added, so the record is not returned exactly as it was. -/
theorem C3_counterexample :
    (fetchIPFSMetadataBody (getField certC3 "tokenURI") envFail).1 = .error "network error" ∧
    getField certC3 "metadata" = none ∧
    getField (enrichRecord certC3 envFail) "metadata" = some .vnull ∧
    enrichRecord certC3 envFail ≠ certC3 := by
  refine ⟨rfl, rfl, rfl, ?_⟩
  intro h
  have h' : (some Val.vnull : Option Val) = none :=
    congrArg (fun o => getField o "metadata") h
  cases h'

/-- C3 amended: for every record whose metadata fetch throws (network
error, non-2xx response, or malformed JSON), augmentation keeps every
original field unchanged except that it sets a `metadata` field to
`null`; the failure propagates neither to sibling records (each output
position depends only on its own input record) nor to the caller. -/
theorem C3_amended (cert : Obj) (env : String → FetchResult) (e : String)
    (herr : (fetchIPFSMetadataBody (getField cert "tokenURI") env).1 = .error e) :
    (∀ k, k ≠ "metadata" → getField (enrichRecord cert env) k = getField cert k) ∧
    getField (enrichRecord cert env) "metadata" = some .vnull ∧
    (∀ certs : List Obj, ∀ i : Nat,
      (augmentCertificates certs env)[i]? = (certs[i]?).map (fun c => enrichRecord c env)) := by
  have hm : fetchIPFSMetadata (getField cert "tokenURI") env = none := by
    unfold fetchIPFSMetadata
    rw [herr]
  rw [enrichRecord_eq_mergeCert, hm]
  have hmc : mergeCert cert none = setField cert "metadata" Val.vnull := rfl
  rw [hmc]
  refine ⟨?_, ?_, ?_⟩
  · intro k hk
    rw [getField_setField]
    have : ¬ ("metadata" = k) := fun h => hk h.symm
    simp [this]
  · rw [getField_setField]
    simp
  · intro certs i
    unfold augmentCertificates
    rw [List.getElem?_map]

/-- C3 witness: on the spec's own scenario record, the amended claim
evaluates as proved — `tokenId` and `tokenURI` are byte-for-byte
unchanged and `metadata` is `null`. -/
theorem C3_amended_witness :
    getField (enrichRecord certC3 envFail) "tokenId" = some (Val.vnum 1) ∧
    getField (enrichRecord certC3 envFail) "tokenURI" = some (Val.vstr "ipfs://X") ∧
    getField (enrichRecord certC3 envFail) "metadata" = some Val.vnull := by
  have h := C3_amended certC3 envFail "network error" rfl
  exact ⟨(h.1 "tokenId" (by decide)).trans rfl,
    (h.1 "tokenURI" (by decide)).trans rfl, h.2.1⟩

/-- C9 counterexample: for the record `certC9`, whose content-locator
field is absent, augmentation attempts no network call but does not
return the record unchanged: it adds a `metadata` field set to `null`. -/
theorem C9_counterexample :
    getField certC9 "tokenURI" = none ∧
    fetchIPFSMetadataCalls (getField certC9 "tokenURI") envFail = [] ∧
    getField certC9 "metadata" = none ∧
    getField (enrichRecord certC9 envFail) "metadata" = some .vnull ∧
    enrichRecord certC9 envFail ≠ certC9 := by
  refine ⟨rfl, rfl, rfl, rfl, ?_⟩
  intro h
  have h' : (some Val.vnull : Option Val) = none :=
    congrArg (fun o => getField o "metadata") h
  cases h'

/-- C9 amended: for every record whose content-locator field is empty or
absent, no metadata network call is attempted and every original field is
kept unchanged, except that a `metadata` field is set to `null`. -/
theorem C9_amended (cert : Obj) (env : String → FetchResult)
    (h : getField cert "tokenURI" = none ∨ getField cert "tokenURI" = some (.vstr "")) :
    fetchIPFSMetadataCalls (getField cert "tokenURI") env = [] ∧
    (∀ k, k ≠ "metadata" → getField (enrichRecord cert env) k = getField cert k) ∧
    getField (enrichRecord cert env) "metadata" = some .vnull := by
  have hfalsy : valFalsy (getField cert "tokenURI") = true := by
    rcases h with h | h <;> rw [h] <;> rfl
  have hbody : fetchIPFSMetadataBody (getField cert "tokenURI") env = (.ok none, []) := by
    unfold fetchIPFSMetadataBody
    rw [hfalsy]
    rfl
  have hm : fetchIPFSMetadata (getField cert "tokenURI") env = none := by
    unfold fetchIPFSMetadata
    rw [hbody]
  refine ⟨?_, ?_, ?_⟩
  · unfold fetchIPFSMetadataCalls
    rw [hbody]
  · intro k hk
    rw [enrichRecord_eq_mergeCert, hm]
    have hmc : mergeCert cert none = setField cert "metadata" Val.vnull := rfl
    rw [hmc, getField_setField]
    have : ¬ ("metadata" = k) := fun hh => hk hh.symm
    simp [this]
  · rw [enrichRecord_eq_mergeCert, hm]
    have hmc : mergeCert cert none = setField cert "metadata" Val.vnull := rfl
    rw [hmc, getField_setField]
    simp

/-- C9 witness: on the concrete locator-free record, the amended claim
evaluates as proved. -/
theorem C9_amended_witness :
    fetchIPFSMetadataCalls (getField certC9 "tokenURI") envFail = [] ∧
    getField (enrichRecord certC9 envFail) "tokenId" = some (Val.vnum 7) := by
  have h := C9_amended certC9 envFail (Or.inl rfl)
  exact ⟨h.1, (h.2.1 "tokenId" (by decide)).trans rfl⟩

/-- C10: `fetchIPFSMetadata` is total over failures — its internal
`catch` turns every throw of its body into a normal `null` return, so
for every locator value and every fetch outcome the call yields a value
and never throws; consequently the `try` block of the per-record
callback in `getCertificates` always returns normally and its `catch`
branch is unreachable. -/
theorem C10_fetchIPFSMetadata_total (t : Option Val) (env : String → FetchResult) (cert : Obj) :
    (∃ v, fetchIPFSMetadataCall t env = .ok v) ∧
    (∃ r, enrichRecordE cert env = .ok r ∧ enrichRecord cert env = r) := by
  constructor
  · exact ⟨fetchIPFSMetadata t env, fetchIPFSMetadataCall_eq_ok t env⟩
  · refine ⟨mergeCert cert (fetchIPFSMetadata (getField cert "tokenURI") env), ?_, ?_⟩
    · unfold enrichRecordE
      rw [fetchIPFSMetadataCall_eq_ok]
    · exact enrichRecord_eq_mergeCert cert env

/-! ## Claim theorems: backend discovery -/

/-- The initial values of the URL globals (page.jsx 13-14). -/
def st0 : ApiState :=
  { apiBaseUrl := "http://localhost:5000/api", healthUrl := "http://localhost:5000/health" }

/-- A probe environment where candidate `a` answers 2xx with a body that
fails JSON parsing and candidate `b` answers 2xx with a valid body. -/
def probeC7 : String → ProbeOutcome := fun u =>
  if u = "http://a/health" then .resp true none
  else .resp true (some [("status", Val.vstr "OK")])

/-- C7 counterexample: candidate `a` answers its liveness probe with a
2xx response, yet because `response.json()` then throws, the `catch`
swallows it and iteration continues: candidate `b` is probed after the
first 2xx success, and `b`'s base URL — not `a`'s — ends up
authoritative. -/
theorem C7_counterexample :
    probe2xx probeC7 "http://a" = true ∧
    (findWorkingBackend probeC7 ["http://a", "http://b"] st0).2.2
      = ["http://a", "http://b"] ∧
    (findWorkingBackend probeC7 ["http://a", "http://b"] st0).2.1
      = { apiBaseUrl := "http://b/api", healthUrl := "http://b/health" } ∧
    "http://b/api" ≠ "http://a/api" :=
  ⟨rfl, rfl, rfl, by decide⟩

/-- C7 amended: for every candidate list in which at least one entry
answers its liveness probe with a 2xx response whose body parses as JSON,
`findWorkingBackend` returns the first such entry's JSON payload, records
that entry's base URL as authoritative for both the data API and the
health URL, and probes no candidate after it. -/
theorem C7_amended (probe : String → ProbeOutcome) (pre : List String) (c : String)
    (post : List String) (st : ApiState) (j : Obj)
    (hpre : ∀ d ∈ pre, goodProbe probe d = none)
    (hc : goodProbe probe c = some j) :
    (findWorkingBackend probe (pre ++ c :: post) st).1 = .ok j ∧
    (findWorkingBackend probe (pre ++ c :: post) st).2.1
      = { apiBaseUrl := c ++ "/api", healthUrl := c ++ "/health" } ∧
    (findWorkingBackend probe (pre ++ c :: post) st).2.2 = pre ++ [c] := by
  induction pre generalizing st with
  | nil =>
    cases hp : probe (c ++ "/health") with
    | err => simp [goodProbe, hp] at hc
    | resp ok body =>
      cases ok with
      | false => simp [goodProbe, hp] at hc
      | true =>
        cases body with
        | none => simp [goodProbe, hp] at hc
        | some j' =>
          have hj : j' = j := by simpa [goodProbe, hp] using hc
          subst hj
          simp [findWorkingBackend, hp]
  | cons d pre' ih =>
    have hd : goodProbe probe d = none := hpre d (List.mem_cons_self d pre')
    have hpre' : ∀ x ∈ pre', goodProbe probe x = none :=
      fun x hx => hpre x (List.mem_cons_of_mem d hx)
    cases hp : probe (d ++ "/health") with
    | err =>
      have h := ih st hpre'
      simp [findWorkingBackend, hp, h.1, h.2.1, h.2.2]
    | resp ok body =>
      cases ok with
      | false =>
        have h := ih st hpre'
        simp [findWorkingBackend, hp, h.1, h.2.1, h.2.2]
      | true =>
        cases body with
        | some j' => simp [goodProbe, hp] at hd
        | none =>
          have h := ih { apiBaseUrl := d ++ "/api", healthUrl := d ++ "/health" } hpre'
          simp [findWorkingBackend, hp, h.1, h.2.1, h.2.2]

/-- A probe environment where every candidate answers 2xx with a valid
JSON body. -/
def probeAllOK : String → ProbeOutcome := fun _ => .resp true (some [("status", Val.vstr "OK")])

/-- C7 witness: with every probe healthy, the first candidate wins and
the second is never probed. -/
theorem C7_amended_witness :
    (findWorkingBackend probeAllOK ["http://a", "http://b"] st0).2.2 = ["http://a"] ∧
    (findWorkingBackend probeAllOK ["http://a", "http://b"] st0).2.1
      = { apiBaseUrl := "http://a/api", healthUrl := "http://a/health" } := by
  have h := C7_amended probeAllOK [] "http://a" ["http://b"] st0
    [("status", Val.vstr "OK")] (fun d hd => absurd hd (List.not_mem_nil d)) rfl
  exact ⟨h.2.2, h.2.1⟩

/-- C8: for every candidate list in which no entry answers its liveness
probe with a 2xx response, `findWorkingBackend` fails with the
no-backend-available error after probing every candidate exactly once —
no probe error aborts the iteration early. -/
theorem C8_all_fail (probe : String → ProbeOutcome) (cands : List String) (st : ApiState)
    (h : ∀ c ∈ cands, probe2xx probe c = false) :
    (findWorkingBackend probe cands st).1 = .error noBackendMsg ∧
    (findWorkingBackend probe cands st).2.2 = cands := by
  induction cands generalizing st with
  | nil => exact ⟨rfl, rfl⟩
  | cons c rest ih =>
    have hc : probe2xx probe c = false := h c (List.mem_cons_self c rest)
    have hrest : ∀ x ∈ rest, probe2xx probe x = false :=
      fun x hx => h x (List.mem_cons_of_mem c hx)
    cases hp : probe (c ++ "/health") with
    | err =>
      have hr := ih st hrest
      simp [findWorkingBackend, hp, hr.1, hr.2]
    | resp ok body =>
      cases ok with
      | true => simp [probe2xx, hp] at hc
      | false =>
        have hr := ih st hrest
        simp [findWorkingBackend, hp, hr.1, hr.2]

/-- A probe environment where every fetch rejects. -/
def probeAllErr : String → ProbeOutcome := fun _ => .err

/-- C8 witness: with both configured candidates down, resolution throws
the no-backend error after probing both, in order. -/
theorem C8_all_fail_witness :
    (findWorkingBackend probeAllErr ["http://localhost:5000", "http://localhost:3001"] st0).1
      = .error noBackendMsg ∧
    (findWorkingBackend probeAllErr ["http://localhost:5000", "http://localhost:3001"] st0).2.2
      = ["http://localhost:5000", "http://localhost:3001"] := by
  have h := C8_all_fail probeAllErr ["http://localhost:5000", "http://localhost:3001"] st0
    (fun c hc => rfl)
  exact ⟨h.1, h.2⟩

/-! ## Claim theorems: dashboard load, balance fallback, network switch -/

theorem fetchDirectBalance_frame (s : DashState) (denv : DirectEnv) :
    (fetchDirectBalance s denv).error = s.error ∧
    (fetchDirectBalance s denv).certificates = s.certificates ∧
    (fetchDirectBalance s denv).certificateCount = s.certificateCount := by
  unfold fetchDirectBalance
  cases hb : denv.hasEthereum <;> cases hp : denv.providerBalance <;> simp [hb, hp]

theorem handleBalance_frame (s : DashState) (bal : Except String BalancePayload)
    (denv : DirectEnv) :
    (handleBalance s bal denv).error = s.error ∧
    (handleBalance s bal denv).certificates = s.certificates ∧
    (handleBalance s bal denv).certificateCount = s.certificateCount := by
  unfold handleBalance
  cases bal with
  | error e => exact fetchDirectBalance_frame s denv
  | ok q =>
    cases hq : q.success with
    | false => simpa [hq] using fetchDirectBalance_frame s denv
    | true => simp [hq]

theorem dashboardFinish_error (s : DashState) : (dashboardFinish s).error = s.error := rfl

theorem dashboardFinish_certificates (s : DashState) :
    (dashboardFinish s).certificates = s.certificates := rfl

theorem dashboardFinish_certificateCount (s : DashState) :
    (dashboardFinish s).certificateCount = s.certificateCount := rfl

/-- The spec's own scenario payload: the backend fulfills the certificate
request with `success:false` and no `error` string. -/
def certFailPayload : CertsPayload :=
  { success := false, certificates := none, count := none, error := none }

/-- A fulfilled balance payload. -/
def balOK : BalancePayload := { success := true, formatted := "42.0" }

/-- A direct-balance environment with a working provider. -/
def denvOK : DirectEnv := { hasEthereum := true, providerBalance := .ok 0 }

/-- C2 counterexample: the network-switch step succeeds, yet the load
fails as a whole — a certificate fetch that fulfills with a
`success:false` payload reaches the `throw` at page.jsx 242, which the
outer `catch` turns into the dashboard-level error. -/
theorem C2_counterexample :
    (fetchWalletData initialDashState (.ok ()) (.ok certFailPayload) (.ok balOK) denvOK).error
      = some "Failed to load dashboard data: Failed to fetch certificates" ∧
    (fetchWalletData initialDashState (.ok ()) (.ok certFailPayload) (.ok balOK) denvOK).error
      ≠ none := by
  refine ⟨rfl, ?_⟩
  intro h
  have h' : (some "Failed to load dashboard data: Failed to fetch certificates"
      : Option String) = none := h
  cases h'

/-- C2 amended: the load fails as a whole only when the network-switch
step throws or the record fetch fulfills with a `success:false` payload;
when the switch succeeds and any fulfilled record payload has
`success:true`, no error is surfaced regardless of the balance outcome,
and a rejected record fetch degrades to an empty record set with count
0. -/
theorem C2_amended (s0 : DashState) (cert : Except String CertsPayload)
    (bal : Except String BalancePayload) (denv : DirectEnv)
    (hcert : ∀ p, cert = .ok p → p.success = true) :
    (fetchWalletData s0 (.ok ()) cert bal denv).error = none ∧
    (∀ e, cert = .error e →
      (fetchWalletData s0 (.ok ()) cert bal denv).certificates = [] ∧
      (fetchWalletData s0 (.ok ()) cert bal denv).certificateCount = 0) := by
  cases cert with
  | ok p =>
    have hs := hcert p rfl
    refine ⟨?_, fun e he => Except.noConfusion he⟩
    simp only [fetchWalletData, hs, if_true]
    rw [dashboardFinish_error, (handleBalance_frame _ bal denv).1]
  | error e0 =>
    refine ⟨?_, ?_⟩
    · simp only [fetchWalletData]
      rw [dashboardFinish_error, (handleBalance_frame _ bal denv).1]
    · intro e he
      refine ⟨?_, ?_⟩
      · simp only [fetchWalletData]
        rw [dashboardFinish_certificates, (handleBalance_frame _ bal denv).2.1]
      · simp only [fetchWalletData]
        rw [dashboardFinish_certificateCount, (handleBalance_frame _ bal denv).2.2]

/-- C2 witness: with the switch succeeding and the certificate fetch
rejected, the load completes without error, showing an empty record set
with count 0. -/
theorem C2_amended_witness :
    (fetchWalletData initialDashState (.ok ()) (.error "boom") (.error "bal") denvOK).error
      = none ∧
    (fetchWalletData initialDashState (.ok ()) (.error "boom") (.error "bal") denvOK).certificates
      = [] ∧
    (fetchWalletData initialDashState (.ok ()) (.error "boom") (.error "bal") denvOK).certificateCount
      = 0 := by
  have h := C2_amended initialDashState (.error "boom") (.error "bal") denvOK
    (fun p hp => by cases hp)
  exact ⟨h.1, (h.2 "boom" rfl).1, (h.2 "boom" rfl).2⟩

theorem dashboardFinish_balance (s : DashState) : (dashboardFinish s).balance = s.balance := rfl

theorem dashboardFinish_balanceSource (s : DashState) :
    (dashboardFinish s).balanceSource = s.balanceSource := rfl

theorem handleBalance_fallback (s : DashState) (bal : Except String BalancePayload)
    (denv : DirectEnv)
    (hbal : (∃ e, bal = .error e) ∨ (∃ q, bal = .ok q ∧ q.success = false)) :
    handleBalance s bal denv = fetchDirectBalance s denv := by
  rcases hbal with ⟨e, he⟩ | ⟨q, hq, hqs⟩
  · rw [he]
    rfl
  · rw [hq]
    simp [handleBalance, hqs]

theorem fetchDirectBalance_ok (s : DashState) (denv : DirectEnv) (wei : Nat)
    (heth : denv.hasEthereum = true) (hp : denv.providerBalance = .ok wei) :
    fetchDirectBalance s denv
      = { s with balance := some (formatEther wei), balanceSource := some .direct } := by
  unfold fetchDirectBalance
  rw [heth, hp]
  simp

theorem fetchDirectBalance_err (s : DashState) (denv : DirectEnv) (e : String)
    (heth : denv.hasEthereum = true) (hp : denv.providerBalance = .error e) :
    fetchDirectBalance s denv
      = { s with balance := some "Unable to load", balanceSource := some .unavailable } := by
  unfold fetchDirectBalance
  rw [heth, hp]
  simp

/-- C6: whenever the backend balance call rejects (including non-2xx,
which `getBalance` turns into a throw) or fulfills with `success:false`,
the displayed balance is taken from the capability provider directly —
its source is `direct` and its value is the provider's raw wei balance
converted to a decimal string — and if the provider call itself fails the
sentinel `"Unable to load"` is shown; in every case the load completes
without surfacing an error: the balance-resolution boundary never throws
to its caller. -/
theorem C6_balance_fallback (s0 : DashState) (cert : Except String CertsPayload)
    (bal : Except String BalancePayload) (denv : DirectEnv)
    (hcert : ∀ p, cert = .ok p → p.success = true)
    (heth : denv.hasEthereum = true)
    (hbal : (∃ e, bal = .error e) ∨ (∃ q, bal = .ok q ∧ q.success = false)) :
    (fetchWalletData s0 (.ok ()) cert bal denv).error = none ∧
    (match denv.providerBalance with
     | .ok wei =>
        (fetchWalletData s0 (.ok ()) cert bal denv).balance = some (formatEther wei) ∧
        (fetchWalletData s0 (.ok ()) cert bal denv).balanceSource = some BalSource.direct
     | .error _ =>
        (fetchWalletData s0 (.ok ()) cert bal denv).balance = some "Unable to load" ∧
        (fetchWalletData s0 (.ok ()) cert bal denv).balanceSource
          = some BalSource.unavailable) := by
  cases cert with
  | ok p =>
    have hs := hcert p rfl
    simp only [fetchWalletData, hs, if_true]
    rw [handleBalance_fallback _ bal denv hbal]
    refine ⟨?_, ?_⟩
    · cases hp : denv.providerBalance with
      | ok wei =>
        rw [fetchDirectBalance_ok _ denv wei heth hp]
        rfl
      | error e =>
        rw [fetchDirectBalance_err _ denv e heth hp]
        rfl
    · cases hp : denv.providerBalance with
      | ok wei =>
        rw [fetchDirectBalance_ok _ denv wei heth hp]
        exact ⟨rfl, rfl⟩
      | error e =>
        rw [fetchDirectBalance_err _ denv e heth hp]
        exact ⟨rfl, rfl⟩
  | error e0 =>
    simp only [fetchWalletData]
    rw [handleBalance_fallback _ bal denv hbal]
    refine ⟨?_, ?_⟩
    · cases hp : denv.providerBalance with
      | ok wei =>
        rw [fetchDirectBalance_ok _ denv wei heth hp]
        rfl
      | error e =>
        rw [fetchDirectBalance_err _ denv e heth hp]
        rfl
    · cases hp : denv.providerBalance with
      | ok wei =>
        rw [fetchDirectBalance_ok _ denv wei heth hp]
        exact ⟨rfl, rfl⟩
      | error e =>
        rw [fetchDirectBalance_err _ denv e heth hp]
        exact ⟨rfl, rfl⟩

/-- A direct-balance environment whose provider reports 5 wei. -/
def denv5 : DirectEnv := { hasEthereum := true, providerBalance := .ok 5 }

/-- C6 witness: backend reports `success:false`, the provider holds 5
wei, and the displayed balance is the direct conversion of 5 wei. -/
theorem C6_balance_fallback_witness :
    (fetchWalletData initialDashState (.ok ()) (.error "c")
      (.ok { success := false, formatted := "x" }) denv5).balance
        = some "0.000000000000000005" ∧
    (fetchWalletData initialDashState (.ok ()) (.error "c")
      (.ok { success := false, formatted := "x" }) denv5).balanceSource
        = some BalSource.direct ∧
    (fetchWalletData initialDashState (.ok ()) (.error "c")
      (.ok { success := false, formatted := "x" }) denv5).error = none := by
  have h := C6_balance_fallback initialDashState (.error "c")
    (.ok { success := false, formatted := "x" }) denv5
    (fun p hp => Except.noConfusion hp) rfl
    (Or.inr ⟨{ success := false, formatted := "x" }, rfl, rfl⟩)
  exact ⟨h.2.1.trans rfl, h.2.2, h.1⟩

/-- A provider on the wrong chain whose switch request fails with the
unrecognized-network code 4902 and whose add-chain request succeeds. -/
def envC4 : EthEnv :=
  { hasEthereum := true, chainId := "0x1",
    switchResult := .error 4902, addChainResult := .ok () }

/-- C4 counterexample: on switch-error code 4902 the code registers the
chain definition (`wallet_addEthereumChain`) but never retries the
switch — the request trace ends with the add-chain call and contains
exactly one switch request, where a retry would require a second one. -/
theorem C4_counterexample :
    ensureCorrectNetwork envC4
      = (.ok (), [.getChainId, .switchChain apothemChainId, .addChain apothemChainId]) ∧
    ((ensureCorrectNetwork envC4).2.filter isSwitchCall).length = 1 ∧
    (ensureCorrectNetwork envC4).2.getLast? = some (.addChain apothemChainId) :=
  ⟨rfl, rfl, rfl⟩

/-- C4 amended: when the provider is on a different chain and the switch
request fails with code 4902, the chain definition is registered with the
provider and the step completes with the add-chain outcome, without
retrying the switch (exactly one switch request is issued); for every
other switch-error code the error propagates to the caller. -/
theorem C4_amended (env : EthEnv) (code : Int)
    (heth : env.hasEthereum = true) (hchain : env.chainId ≠ apothemChainId)
    (hswitch : env.switchResult = .error code) :
    (code = 4902 →
      (ensureCorrectNetwork env).1 = env.addChainResult ∧
      (ensureCorrectNetwork env).2
        = [.getChainId, .switchChain apothemChainId, .addChain apothemChainId] ∧
      ((ensureCorrectNetwork env).2.filter isSwitchCall).length = 1) ∧
    (code ≠ 4902 →
      (ensureCorrectNetwork env).1 = .error code ∧
      (ensureCorrectNetwork env).2 = [.getChainId, .switchChain apothemChainId]) := by
  unfold ensureCorrectNetwork
  rw [heth, hswitch]
  simp only [Bool.not_true, Bool.false_eq_true, if_false, if_neg hchain]
  constructor
  · intro hcode
    rw [if_pos hcode]
    cases hadd : env.addChainResult with
    | ok u =>
      cases u
      exact ⟨rfl, rfl, rfl⟩
    | error e => exact ⟨rfl, rfl, rfl⟩
  · intro hcode
    rw [if_neg hcode]
    exact ⟨rfl, rfl⟩

/-- C4 witness: on the concrete 4902 environment the amended behavior
evaluates as proved. -/
theorem C4_amended_witness :
    (ensureCorrectNetwork envC4).1 = .ok () ∧
    (ensureCorrectNetwork envC4).2
      = [.getChainId, .switchChain apothemChainId, .addChain apothemChainId] := by
  have h := C4_amended envC4 4902 rfl (by decide) rfl
  exact ⟨((h.1 rfl).1).trans rfl, (h.1 rfl).2.1⟩
